import Mathlib

/-!
Shallow embedding of `ldez/websocketproxy` (src/proxy.go) for checking its
natural-language specification.

Go strings are embedded as Lean `String`s (the headers and paths involved are
ASCII, so byte-level and char-level views agree).  A Go `http.Header`
(`map[string][]string` with canonicalized insertion keys) is embedded as an
association list from stored key to value list; the operations `Add`, `Set`,
`Get`, `Del` canonicalize their argument key exactly as `net/textproto` does,
and look the result up by exact match against stored keys, matching Go map
semantics.  Go map iteration order is unspecified; the model fixes the list
order, which no claim below depends on.
-/

namespace WebsocketProxy

/-- `net/textproto.validHeaderFieldByte`: ASCII token bytes per RFC 7230
(alphanumerics and `! # $ % & ' * + - . ^ _ | ~` and the backquote,
given here by code point). -/
def validHeaderFieldChar (c : Char) : Bool :=
  let n := c.toNat
  (48 ≤ n && n ≤ 57) || (65 ≤ n && n ≤ 90) || (97 ≤ n && n ≤ 122) ||
    [33, 35, 36, 37, 38, 39, 42, 43, 45, 46, 94, 95, 96, 124, 126].contains n

/-- ASCII upcasing of a single char, as Go does byte-wise. -/
def asciiToUpper (c : Char) : Char :=
  if 97 ≤ c.toNat && c.toNat ≤ 122 then Char.ofNat (c.toNat - 32) else c

/-- ASCII downcasing of a single char, as Go does byte-wise. -/
def asciiToLower (c : Char) : Char :=
  if 65 ≤ c.toNat && c.toNat ≤ 90 then Char.ofNat (c.toNat + 32) else c

/-- The char-by-char loop of `textproto.CanonicalMIMEHeaderKey`: upcase at the
start of the key and after each hyphen, downcase elsewhere. -/
def canonChars : Bool → List Char → List Char
  | _, [] => []
  | upper, c :: cs =>
      let c2 := if upper then asciiToUpper c else asciiToLower c
      c2 :: canonChars (c2 == '-') cs

/-- `textproto.CanonicalMIMEHeaderKey`: keys containing an invalid header
field byte are returned unchanged, otherwise they are canonicalized. -/
def canonicalMIMEHeaderKey (s : String) : String :=
  if s.data.all validHeaderFieldChar then ⟨canonChars true s.data⟩ else s

/-- An `http.Header`: stored key ↦ list of values. -/
abbrev Header : Type := List (String × List String)

/-- The value list stored under an exact key (Go map lookup `h[key]`);
absent keys give the empty list, like a `nil` slice. -/
def findVals (h : Header) (key : String) : List String :=
  match h.find? (fun e => e.fst == key) with
  | some e => e.snd
  | none => []

/-- Lookup by already-canonicalized key: first stored value or `""`
(`textproto.MIMEHeader.Get` returns `""` both for an absent key and for an
empty value list). -/
def getK (h : Header) (key : String) : String := (findVals h key).headD ""

/-- `http.Header.Get`: canonicalize, then look up. -/
def get (h : Header) (k : String) : String := getK h (canonicalMIMEHeaderKey k)

/-- Deletion by already-canonicalized key (Go `delete(h, key)`). -/
def delK (h : Header) (key : String) : Header :=
  h.filter (fun e => !(e.fst == key))

/-- `http.Header.Del`: canonicalize, then delete. -/
def del (h : Header) (k : String) : Header := delK h (canonicalMIMEHeaderKey k)

/-- Does the map contain this exact stored key (Go `_, ok := h[key]`)? -/
def hasKey (h : Header) (key : String) : Bool := h.any (fun e => e.fst == key)

/-- `http.Header.Add`: canonicalize the key and append the value to its
value list (creating the entry when absent). -/
def add (h : Header) (k v : String) : Header :=
  let key := canonicalMIMEHeaderKey k
  if hasKey h key then
    h.map (fun e => if e.fst == key then (e.fst, e.snd ++ [v]) else e)
  else
    h ++ [(key, [v])]

/-- `http.Header.Set`: canonicalize the key and replace its value list by the
singleton `[v]`. -/
def set (h : Header) (k v : String) : Header :=
  let key := canonicalMIMEHeaderKey k
  if hasKey h key then
    h.map (fun e => if e.fst == key then (e.fst, [v]) else e)
  else
    h ++ [(key, [v])]

/-- `copyHeader` (proxy.go:70): `dst.Add(k, v)` for every value of every
source header. -/
def copyHeader (dst src : Header) : Header :=
  src.foldl (fun d e => e.snd.foldl (fun d2 v => add d2 e.fst v) d) dst

/-- `hopHeaders` (proxy.go:45), in source order. -/
def hopHeaders : List String :=
  ["Connection", "Keep-Alive", "Proxy-Authenticate", "Proxy-Authorization",
   "Te", "Trailers", "Transfer-Encoding", "Upgrade",
   "Sec-Websocket-Accept", "Sec-Websocket-Extensions",
   "Sec-Websocket-Key", "Sec-Websocket-Version"]

/-- `WebsocketDialHeaders` (proxy.go:61), in source order. -/
def WebsocketDialHeaders : List String :=
  ["Upgrade", "Connection", "Sec-Websocket-Key", "Sec-Websocket-Version",
   "Sec-Websocket-Extensions", "Sec-Websocket-Accept"]

/-- One iteration of the header-stripping loops in `ServeHTTP`
(proxy.go:177 and proxy.go:227): skip the name when `Get` returns `""`,
otherwise `Del` it. -/
def headerStep (h : Header) (name : String) : Header :=
  if get h name = "" then h else del h name

/-- The static hop-by-hop pass of `ServeHTTP` (proxy.go:227-233). -/
def staticHopPass (h : Header) : Header := hopHeaders.foldl headerStep h

/-- The dial-header deletion loop of `ServeHTTP` (proxy.go:177-183). -/
def stripDialHeaders (h : Header) : Header :=
  WebsocketDialHeaders.foldl headerStep h

/-- `strings.Split(c, ",")` at the char level: the comma-separated fields of
`c`, in order (always at least one field). -/
def splitCommaChars : List Char → List (List Char)
  | [] => [[]]
  | c :: cs =>
      let r := splitCommaChars cs
      if c == ',' then [] :: r
      else
        match r with
        | [] => [[c]]
        | g :: gs => (c :: g) :: gs

/-- `strings.TrimSpace` at the char level (the `Connection` directives in play
are ASCII, where Go's Unicode trimming coincides with this one). -/
def trimChars (s : List Char) : List Char :=
  ((s.dropWhile Char.isWhitespace).reverse.dropWhile Char.isWhitespace).reverse

/-- `removeConnectionHeaders` (proxy.go:80): when the `Connection` header's
first value is nonempty, split it on commas, trim each field, and delete each
nonempty field name. -/
def removeConnectionHeaders (h : Header) : Header :=
  let c := get h "Connection"
  if c = "" then h
  else
    (splitCommaChars c.data).foldl
      (fun acc f =>
        let g : String := ⟨trimChars f⟩
        if g = "" then acc else del acc g) h

/-- The response-header stripping performed by `ServeHTTP` (proxy.go:225-233):
`removeConnectionHeaders` followed by the static hop-by-hop pass. -/
def stripHopByHop (h : Header) : Header := staticHopPass (removeConnectionHeaders h)

/-- `strings.HasSuffix(a, "/")`: the last char of `a` is a slash. -/
def hasSlashSuffix (a : List Char) : Bool := a.getLast? == some '/'

/-- `strings.HasPrefix(b, "/")`: the first char of `b` is a slash. -/
def hasSlashLead (b : List Char) : Bool := b.head? == some '/'

/-- `singleJoiningSlash` (proxy.go:323) at the char level; `b.tail` is Go's
`b[1:]` (the dropped byte is the ASCII `/`). -/
def singleJoiningSlashL (a b : List Char) : List Char :=
  match hasSlashSuffix a, hasSlashLead b with
  | true, true => a ++ b.tail
  | false, false => a ++ ('/' :: b)
  | _, _ => a ++ b

/-- `singleJoiningSlash` (proxy.go:323). -/
def singleJoiningSlash (a b : String) : String :=
  ⟨singleJoiningSlashL a.data b.data⟩

/-- Length of the run of leading slashes. -/
def leadSlashRun (b : List Char) : Nat := (b.takeWhile (fun c => c == '/')).length

/-- Length of the run of trailing slashes. -/
def trailSlashRun (a : List Char) : Nat := leadSlashRun a.reverse

/-- Drop the whole run of leading slashes. -/
def stripLeadSlashes (b : List Char) : List Char := b.dropWhile (fun c => c == '/')

/-- Drop the whole run of trailing slashes. -/
def stripTrailSlashes (a : List Char) : List Char :=
  (a.reverse.dropWhile (fun c => c == '/')).reverse

/-- How many slashes `singleJoiningSlash` leaves between `a`'s last non-slash
content and `b`'s first non-slash content. -/
def junctionSlashes (a b : List Char) : Nat :=
  match hasSlashSuffix a, hasSlashLead b with
  | true, true => trailSlashRun a + leadSlashRun b - 1
  | false, false => 1
  | _, _ => trailSlashRun a + leadSlashRun b

/-- A rewritable `url.URL`, restricted to the fields the proxy touches. -/
structure URLRec where
  scheme : String
  host : String
  path : String
  rawQuery : String
deriving DecidableEq

/-- The `director` closure built by `NewSingleHostReverseProxy` (proxy.go:96):
rewrite scheme/host, join paths, merge queries, blank a missing `User-Agent`
(a literal Go map-index check, hence exact-key), and map http→ws, https→wss.
Returns the rewritten URL and the (possibly updated) outbound header set. -/
def directorTransform (target : URLRec) (u : URLRec) (h : Header) : URLRec × Header :=
  let scheme1 := target.scheme
  let host1 := target.host
  let path1 := singleJoiningSlash target.path u.path
  let rawQuery1 :=
    if target.rawQuery = "" || u.rawQuery = "" then target.rawQuery ++ u.rawQuery
    else target.rawQuery ++ "&" ++ u.rawQuery
  let h1 := if hasKey h "User-Agent" then h else set h "User-Agent" ""
  let scheme2 := if scheme1 = "https" then "wss" else if scheme1 = "http" then "ws" else scheme1
  (⟨scheme2, host1, path1, rawQuery1⟩, h1)

/-- A heap of header objects and URL objects; `http.Request.Header` and
`http.Request.URL` are references (indices) into it, so that Go's pointer
aliasing under `*outReq = *req` is observable. -/
structure GoHeap where
  headers : List Header
  urls : List URLRec
deriving DecidableEq

/-- The two reference-typed fields of `http.Request` that `ServeHTTP`'s
outbound-request construction reads or writes. -/
structure RequestRec where
  headerRef : Nat
  urlRef : Nat
deriving DecidableEq

/-- `ServeHTTP`'s outbound-request construction (proxy.go:169-183):
`outReq := new(http.Request); *outReq = *req` (shallow copy — the URL
reference is shared), a fresh header object, `copyHeader`, the default
`Director`, then the dial-header deletion loop.  Returns the updated heap and
the outbound request. -/
def buildOutboundRequest (target : URLRec) (heap : GoHeap) (req : RequestRec) :
    GoHeap × RequestRec :=
  let hRef := heap.headers.length
  let inHdr := heap.headers.getD req.headerRef []
  let outHdr1 := copyHeader [] inHdr
  let u := heap.urls.getD req.urlRef ⟨"", "", "", ""⟩
  let du := directorTransform target u outHdr1
  let outHdr2 := stripDialHeaders du.snd
  (⟨(heap.headers ++ [[]]).set hRef outHdr2, heap.urls.set req.urlRef du.fst⟩,
   { headerRef := hRef, urlRef := req.urlRef })

/-- A gorilla/websocket error as seen by the proxy: `closeInfo` is
`some (code, text)` exactly when the `*websocket.CloseError` type assertion
succeeds, and `descr` is the error's `fmt.Sprintf("%v", err)` rendering. -/
structure WsError where
  closeInfo : Option (Nat × String)
  descr : String
deriving DecidableEq

/-- Events on a relay direction's error-termination path.  A forwarded close
frame is identified by the `(code, text)` arguments the source passes to
`websocket.FormatCloseMessage` (the byte encoding is abstracted away). -/
inductive REvent where
  | sendErr (e : WsError)
  | forwardClose (code : Nat) (text : String)
deriving DecidableEq

/-- The read-error termination path of `replicateWebsocketConn`
(proxy.go:295-314): compute the close message `m`, send the error on the
result channel, then forward `m` when non-nil.  Close codes: 1000 normal
closure, 1005 no status received, 1006 abnormal closure, 1015 TLS handshake. -/
def replicateOnReadError (e : WsError) : List REvent :=
  let m : Option (Nat × String) := some (1000, e.descr)
  let m :=
    match e.closeInfo with
    | some ct =>
        if ct.fst ≠ 1005 then
          if ct.fst ≠ 1006 && ct.fst ≠ 1015 then some (ct.fst, ct.snd) else none
        else m
    | none => m
  REvent.sendErr e ::
    (match m with
     | some f => [REvent.forwardClose f.fst f.snd]
     | none => [])

/-- The logging condition of `ServeHTTP` (proxy.go:264): the first relay
error is logged iff the `*websocket.CloseError` assertion fails (`!ok`) or
the close code is `websocket.CloseAbnormalClosure` (1006). -/
def logsFirstError (e : WsError) : Bool :=
  match e.closeInfo with
  | none => true
  | some ct => ct.fst == 1006

/-- The three dial outcomes of `dialer.DialContext` (proxy.go:185). -/
inductive DialOutcome where
  | ok
  | errNoResp
  | errWithResp
deriving DecidableEq

/-- Observable events of `ServeHTTP`, in program order. -/
inductive SEvent where
  | dialAttempt
  | logDialError
  | logDialErrorWithResp
  | logCannotHijack
  | logHijackFailed
  | logForwardFailed
  | callErrorHandler
  | hijack
  | writeRespToConn
  | closeHijackedConn
  | upgradeAttempt
  | logUpgradeError
  | startRelay
  | logRelayError (e : WsError)
  | closeClientConn
  | closeTargetConn
  | callClosedHook
deriving DecidableEq

/-- The environment outcomes `ServeHTTP` branches on: the dial result,
whether the ResponseWriter supports hijacking, the hijack and response-write
results, the upgrade result, whether a closed-hook is configured, and the
first error delivered by a relay direction. -/
structure ServeOracle where
  dialOutcome : DialOutcome
  canHijack : Bool
  hijackOk : Bool
  writeRespOk : Bool
  upgradeOk : Bool
  hookConfigured : Bool
  firstRelayErr : WsError
deriving DecidableEq

/-- Event trace of `ServeHTTP` (proxy.go:163-268).  Deferred calls
(`conn.Close()` on the hijack path; close client/target then hook on the
relay path) run when the function returns, hence appear last on their
branches.  On upgrade failure the deferred teardown was never installed, so
the function returns after logging. -/
def serveHTTP (o : ServeOracle) : List SEvent :=
  SEvent.dialAttempt ::
    match o.dialOutcome with
    | DialOutcome.errNoResp => [SEvent.logDialError, SEvent.callErrorHandler]
    | DialOutcome.errWithResp =>
        SEvent.logDialErrorWithResp ::
          if !o.canHijack then [SEvent.logCannotHijack, SEvent.callErrorHandler]
          else if !o.hijackOk then [SEvent.logHijackFailed, SEvent.callErrorHandler]
          else
            SEvent.hijack ::
              ((if o.writeRespOk then [SEvent.writeRespToConn]
                else [SEvent.logForwardFailed, SEvent.callErrorHandler]) ++
                [SEvent.closeHijackedConn])
    | DialOutcome.ok =>
        SEvent.upgradeAttempt ::
          if !o.upgradeOk then [SEvent.logUpgradeError]
          else
            SEvent.startRelay ::
              ((if logsFirstError o.firstRelayErr
                then [SEvent.logRelayError o.firstRelayErr] else []) ++
                ([SEvent.closeClientConn, SEvent.closeTargetConn] ++
                  (if o.hookConfigured then [SEvent.callClosedHook] else [])))

/-- Outcome of one `logf` call (proxy.go:144): the lines written to the
process-wide default logger, and whether the call completed or faulted with a
nil-interface method call. -/
inductive LogfResult where
  | ok (defaultLines loggerLines : List String)
  | nilPanic (defaultLines : List String)
deriving DecidableEq

/-- `logf` (proxy.go:144): when `p.Logger == nil` it writes the line via
`log.Printf` and then still calls `p.Logger.Printf` on the nil interface —
there is no `return` after the fallback — which faults; with a logger
configured it writes the line to that logger. -/
def logf (hasLogger : Bool) (msg : String) : LogfResult :=
  if hasLogger then LogfResult.ok [] [msg]
  else LogfResult.nilPanic [msg]

example : canonicalMIMEHeaderKey "sec-webSocket-KEY" = "Sec-Websocket-Key" := by decide
example : canonicalMIMEHeaderKey "TE" = "Te" := by decide
example : get [("Upgrade", [""])] "upgrade" = "" := by decide
example : stripHopByHop [("Keep-Alive", [""])] = [("Keep-Alive", [""])] := by decide
example :
    stripHopByHop [("Connection", ["X-Foo"]), ("X-Foo", ["1"]), ("Date", ["d"])]
      = [("Date", ["d"])] := by decide

theorem find?_filter_out_none (h : Header) (key : String) :
    (h.filter (fun e => !(e.fst == key))).find? (fun e => e.fst == key) = none := by
  induction h with
  | nil => rfl
  | cons e t ih =>
    by_cases hek : e.fst = key
    · simp [List.filter_cons, hek, ih]
    · simp [List.filter_cons, List.find?, hek, ih]

theorem find?_filter_out_ne (h : Header) (key k2 : String) (hne : key ≠ k2) :
    (h.filter (fun e => !(e.fst == k2))).find? (fun e => e.fst == key)
      = h.find? (fun e => e.fst == key) := by
  induction h with
  | nil => rfl
  | cons e t ih =>
    rw [List.filter_cons]
    by_cases he2 : e.fst = k2
    · have hkeep : (!(e.fst == k2)) = false := by simp [he2]
      have hek : ¬((e.fst == key) = true) := by
        simp only [beq_iff_eq]
        rw [he2]
        exact fun hh => hne hh.symm
      rw [hkeep]
      simp only [Bool.false_eq_true, if_false]
      rw [List.find?_cons_of_neg t hek]
      exact ih
    · have hkeep : (!(e.fst == k2)) = true := by simp [he2]
      rw [hkeep]
      simp only [if_true]
      by_cases hek : e.fst = key
      · rw [List.find?_cons_of_pos _ (by simp [hek]),
            List.find?_cons_of_pos _ (by simp [hek])]
      · rw [List.find?_cons_of_neg _ (by simp [hek]),
            List.find?_cons_of_neg _ (by simp [hek])]
        exact ih

theorem getK_delK_self (h : Header) (key : String) : getK (delK h key) key = "" := by
  unfold getK delK findVals
  rw [find?_filter_out_none]
  rfl

theorem getK_delK_ne (h : Header) (key k2 : String) (hne : key ≠ k2) :
    getK (delK h k2) key = getK h key := by
  simp [getK, delK, findVals, find?_filter_out_ne h key k2 hne]

theorem getK_delK_empty (h : Header) (key k2 : String) (h0 : getK h key = "") :
    getK (delK h k2) key = "" := by
  by_cases hk : key = k2
  · rw [hk]; exact getK_delK_self h k2
  · rw [getK_delK_ne h key k2 hk]; exact h0

theorem getK_headerStep_self (h : Header) (name : String) :
    getK (headerStep h name) (canonicalMIMEHeaderKey name) = "" := by
  unfold headerStep
  split
  · exact ‹get h name = ""›
  · exact getK_delK_self h (canonicalMIMEHeaderKey name)

theorem getK_headerStep_empty (h : Header) (name key : String) (h0 : getK h key = "") :
    getK (headerStep h name) key = "" := by
  unfold headerStep
  split
  · exact h0
  · exact getK_delK_empty h key (canonicalMIMEHeaderKey name) h0

theorem getK_foldl_headerStep_empty (L : List String) (h : Header) (key : String)
    (h0 : getK h key = "") : getK (L.foldl headerStep h) key = "" := by
  induction L generalizing h with
  | nil => exact h0
  | cons n t ih => exact ih (headerStep h n) (getK_headerStep_empty h n key h0)

theorem getK_foldl_headerStep_mem (L : List String) : ∀ (h : Header) (key : String),
    key ∈ L.map canonicalMIMEHeaderKey → getK (L.foldl headerStep h) key = "" := by
  induction L with
  | nil => intro h key hmem; cases hmem
  | cons n t ih =>
    intro h key hmem
    rcases List.mem_cons.mp hmem with hk | hk
    · subst hk
      exact getK_foldl_headerStep_empty t (headerStep h n) _ (getK_headerStep_self h n)
    · exact ih (headerStep h n) key hk

theorem foldl_headerStep_id (L : List String) (h : Header)
    (hall : ∀ n ∈ L, get h n = "") : L.foldl headerStep h = h := by
  induction L with
  | nil => rfl
  | cons n t ih =>
    have hstep : headerStep h n = h := by
      unfold headerStep
      rw [hall n (List.mem_cons_self n t)]
      simp
    show t.foldl headerStep (headerStep h n) = h
    rw [hstep]
    exact ih (fun m hm => hall m (List.mem_cons_of_mem n hm))

theorem get_stripHopByHop_of_mem (h : Header) (n : String) (hn : n ∈ hopHeaders) :
    get (stripHopByHop h) n = "" := by
  unfold stripHopByHop staticHopPass get
  exact getK_foldl_headerStep_mem hopHeaders _ _
    (List.mem_map_of_mem canonicalMIMEHeaderKey hn)

/-- Claim C5 (counterexample): the backend response header set
`Keep-Alive: ""` still contains the hop-by-hop name `Keep-Alive` after the
proxy's stripping step, because the static pass skips any name whose `Get`
returns the empty string. -/
theorem claim_C5_counterexample :
    hasKey (stripHopByHop [("Keep-Alive", [""])]) "Keep-Alive" = true ∧
    stripHopByHop [("Keep-Alive", [""])] = [("Keep-Alive", [""])] := by decide

/-- Claim C5 (amended): after the proxy's stripping step
(`removeConnectionHeaders` then the static hop-by-hop pass), `Get` returns
the empty string for every hop-by-hop header name in any casing — so no
hop-by-hop name survives with a nonempty first value; a hop-by-hop header
whose first value was the empty string is retained rather than removed. -/
theorem claim_C5_amended (h : Header) (n : String)
    (hn : canonicalMIMEHeaderKey n ∈ hopHeaders) :
    get (stripHopByHop h) n = "" := by
  have hmap : hopHeaders.map canonicalMIMEHeaderKey = hopHeaders := by decide
  unfold stripHopByHop staticHopPass get
  exact getK_foldl_headerStep_mem hopHeaders _ _ (by rw [hmap]; exact hn)

/-- Claim C5 witness: the amended statement applied to a concrete backend
response header set and the name `TE` (canonically `Te`). -/
theorem claim_C5_witness :
    canonicalMIMEHeaderKey "TE" ∈ hopHeaders ∧
    get (stripHopByHop [("Te", ["trailers"]), ("Date", ["d"])]) "TE" = "" :=
  ⟨by decide, claim_C5_amended [("Te", ["trailers"]), ("Date", ["d"])] "TE" (by decide)⟩

/-- Claim C8: the hop-by-hop stripping operation (`removeConnectionHeaders`
followed by the static hop-by-hop deletion pass) is idempotent: applying it
twice yields the same header set as applying it once. -/
theorem claim_C8 (h : Header) : stripHopByHop (stripHopByHop h) = stripHopByHop h := by
  have hconn : get (stripHopByHop h) "Connection" = "" :=
    get_stripHopByHop_of_mem h "Connection" (by decide)
  have hrm : removeConnectionHeaders (stripHopByHop h) = stripHopByHop h := by
    unfold removeConnectionHeaders
    rw [hconn]
    simp
  show staticHopPass (removeConnectionHeaders (stripHopByHop h)) = stripHopByHop h
  rw [hrm]
  exact foldl_headerStep_id hopHeaders _ (fun n hn => get_stripHopByHop_of_mem h n hn)

theorem getD_set_fresh (l : List Header) (v : Header) :
    ((l ++ [[]]).set l.length v).getD l.length [] = v := by
  induction l with
  | nil => rfl
  | cons e t ih => exact ih

/-- Claim C4 (counterexample): an inbound request whose header set carries
`Upgrade: ""` still has the dial header name `Upgrade` in the outbound
request's header set immediately before dialing, because the deletion loop
skips any name whose `Get` returns the empty string. -/
theorem claim_C4_counterexample :
    hasKey
      ((buildOutboundRequest ⟨"http", "backend", "/base", ""⟩
          ⟨[[("Upgrade", [""])]], [⟨"http", "h", "/p", ""⟩]⟩ ⟨0, 0⟩).fst.headers.getD
        (buildOutboundRequest ⟨"http", "backend", "/base", ""⟩
          ⟨[[("Upgrade", [""])]], [⟨"http", "h", "/p", ""⟩]⟩ ⟨0, 0⟩).snd.headerRef [])
      "Upgrade" = true := by decide

/-- Claim C4 (amended): immediately before the backend dial, `Get` on the
outbound request's header set returns the empty string for every WebSocket
dial header name in any casing — so no dial header survives with a nonempty
first value; a dial header supplied with an empty-string first value is
retained rather than removed. -/
theorem claim_C4_amended (t : URLRec) (heap : GoHeap) (req : RequestRec) (n : String)
    (hn : canonicalMIMEHeaderKey n ∈ WebsocketDialHeaders) :
    get ((buildOutboundRequest t heap req).fst.headers.getD
          (buildOutboundRequest t heap req).snd.headerRef []) n = "" := by
  have hmap : WebsocketDialHeaders.map canonicalMIMEHeaderKey = WebsocketDialHeaders := by
    decide
  show get (((heap.headers ++ [[]]).set heap.headers.length _).getD heap.headers.length []) n
        = ""
  rw [getD_set_fresh]
  unfold stripDialHeaders get
  exact getK_foldl_headerStep_mem WebsocketDialHeaders _ _ (by rw [hmap]; exact hn)

/-- Claim C4 witness: the amended statement applied to a concrete inbound
request supplying `Sec-WebSocket-Key`. -/
theorem claim_C4_witness :
    canonicalMIMEHeaderKey "Sec-WebSocket-Key" ∈ WebsocketDialHeaders ∧
    get ((buildOutboundRequest ⟨"http", "backend", "/base", ""⟩
            ⟨[[("Sec-Websocket-Key", ["abc"])]], [⟨"http", "h", "/p", ""⟩]⟩ ⟨0, 0⟩).fst.headers.getD
          (buildOutboundRequest ⟨"http", "backend", "/base", ""⟩
            ⟨[[("Sec-Websocket-Key", ["abc"])]], [⟨"http", "h", "/p", ""⟩]⟩ ⟨0, 0⟩).snd.headerRef [])
        "Sec-WebSocket-Key" = "" :=
  ⟨by decide,
   claim_C4_amended ⟨"http", "backend", "/base", ""⟩
     ⟨[[("Sec-Websocket-Key", ["abc"])]], [⟨"http", "h", "/p", ""⟩]⟩ ⟨0, 0⟩
     "Sec-WebSocket-Key" (by decide)⟩

/-- Claim C7: building the outbound request never mutates the inbound
request's header set — the header object the inbound request references holds
the same name-to-values mapping after `ServeHTTP`'s outbound-request
construction (shallow copy, `copyHeader` into a fresh header set, Director
application including the `User-Agent` blanking, and dial-header deletion). -/
theorem claim_C7 (t : URLRec) (heap : GoHeap) (req : RequestRec)
    (hv : req.headerRef < heap.headers.length) :
    (buildOutboundRequest t heap req).fst.headers[req.headerRef]?
      = heap.headers[req.headerRef]? := by
  show ((heap.headers ++ [[]]).set heap.headers.length _)[req.headerRef]?
        = heap.headers[req.headerRef]?
  rw [List.getElem?_set_ne (Nat.ne_of_gt hv)]
  exact List.getElem?_append_left hv

/-- Claim C7 witness: the theorem applied to a concrete heap and request. -/
theorem claim_C7_witness :
    (0 : Nat) < 1 ∧
    (buildOutboundRequest ⟨"http", "backend", "/base", ""⟩
        ⟨[[("X-Thing", ["1"])]], [⟨"http", "h", "/p", ""⟩]⟩ ⟨0, 0⟩).fst.headers[(0 : Nat)]?
      = [[("X-Thing", ["1"])]][(0 : Nat)]? :=
  ⟨by decide,
   claim_C7 ⟨"http", "backend", "/base", ""⟩
     ⟨[[("X-Thing", ["1"])]], [⟨"http", "h", "/p", ""⟩]⟩ ⟨0, 0⟩ (by decide)⟩

/-- Claim C10: the outbound request shares the inbound request's URL object —
the shallow copy keeps the same URL reference, so after the construction the
inbound request's URL slot holds exactly the Director-rewritten URL (scheme,
host, path, query). -/
theorem claim_C10 (t : URLRec) (heap : GoHeap) (req : RequestRec)
    (hv : req.urlRef < heap.urls.length) :
    (buildOutboundRequest t heap req).snd.urlRef = req.urlRef ∧
    (buildOutboundRequest t heap req).fst.urls[req.urlRef]?
      = some (directorTransform t (heap.urls.getD req.urlRef ⟨"", "", "", ""⟩)
               (copyHeader [] (heap.headers.getD req.headerRef []))).fst := by
  refine ⟨rfl, ?_⟩
  show (heap.urls.set req.urlRef _)[req.urlRef]? = _
  rw [List.getElem?_set_self hv]

/-- Claim C10 witness: the theorem applied to a concrete heap and request;
the inbound URL slot now holds the rewritten `wss` URL. -/
theorem claim_C10_witness :
    (0 : Nat) < 1 ∧
    ((buildOutboundRequest ⟨"https", "backend", "/base", "a=1"⟩
        ⟨[[]], [⟨"http", "h", "/p", "x=1"⟩]⟩ ⟨0, 0⟩).snd.urlRef = 0 ∧
     (buildOutboundRequest ⟨"https", "backend", "/base", "a=1"⟩
        ⟨[[]], [⟨"http", "h", "/p", "x=1"⟩]⟩ ⟨0, 0⟩).fst.urls[(0 : Nat)]?
       = some (directorTransform ⟨"https", "backend", "/base", "a=1"⟩
                (([⟨"http", "h", "/p", "x=1"⟩] : List URLRec).getD 0 ⟨"", "", "", ""⟩)
                (copyHeader [] (([[]] : List Header).getD 0 []))).fst) :=
  ⟨by decide,
   claim_C10 ⟨"https", "backend", "/base", "a=1"⟩
     ⟨[[]], [⟨"http", "h", "/p", "x=1"⟩]⟩ ⟨0, 0⟩ (by decide)⟩

theorem takeWhile_slash_eq_replicate (b : List Char) :
    b.takeWhile (fun c => c == '/') = List.replicate (leadSlashRun b) '/' := by
  apply List.eq_replicate_iff.mpr
  refine ⟨rfl, ?_⟩
  intro c hc
  have hp := List.mem_takeWhile_imp hc
  simpa using hp

theorem lead_decomp (b : List Char) :
    b = List.replicate (leadSlashRun b) '/' ++ stripLeadSlashes b := by
  conv_lhs => rw [← List.takeWhile_append_dropWhile (p := fun c => c == '/') (l := b)]
  rw [takeWhile_slash_eq_replicate]
  rfl

theorem hasSlashLead_true_iff (b : List Char) :
    hasSlashLead b = true ↔ 1 ≤ leadSlashRun b := by
  cases b with
  | nil => simp [hasSlashLead, leadSlashRun]
  | cons c t =>
    by_cases hc : c = '/'
    · simp [hasSlashLead, leadSlashRun, List.takeWhile_cons, hc]
    · simp [hasSlashLead, leadSlashRun, List.takeWhile_cons, hc]

theorem hasSlashLead_false (b : List Char) (hb : hasSlashLead b = false) :
    leadSlashRun b = 0 ∧ stripLeadSlashes b = b := by
  cases b with
  | nil => exact ⟨rfl, rfl⟩
  | cons c t =>
    have hc : ¬(c = '/') := by simpa [hasSlashLead] using hb
    constructor
    · simp [leadSlashRun, List.takeWhile_cons, hc]
    · simp [stripLeadSlashes, List.dropWhile_cons, hc]

theorem hasSlashSuffix_eq_rev (a : List Char) :
    hasSlashSuffix a = hasSlashLead a.reverse := by
  unfold hasSlashSuffix hasSlashLead
  rw [List.head?_reverse]

theorem trail_decomp (a : List Char) :
    a = stripTrailSlashes a ++ List.replicate (trailSlashRun a) '/' := by
  have h := congrArg List.reverse (lead_decomp a.reverse)
  rw [List.reverse_reverse, List.reverse_append, List.reverse_replicate] at h
  exact h

theorem hasSlashSuffix_true_iff (a : List Char) :
    hasSlashSuffix a = true ↔ 1 ≤ trailSlashRun a := by
  rw [hasSlashSuffix_eq_rev]
  exact hasSlashLead_true_iff a.reverse

theorem hasSlashSuffix_false (a : List Char) (ha : hasSlashSuffix a = false) :
    trailSlashRun a = 0 ∧ stripTrailSlashes a = a := by
  rw [hasSlashSuffix_eq_rev] at ha
  have h := hasSlashLead_false a.reverse ha
  have h2 : stripLeadSlashes a.reverse = a.reverse := h.2
  refine ⟨h.1, ?_⟩
  unfold stripTrailSlashes
  unfold stripLeadSlashes at h2
  rw [h2]
  exact List.reverse_reverse a

theorem tail_replicate_append (n : Nat) (hn : 1 ≤ n) (l : List Char) :
    (List.replicate n '/' ++ l).tail = List.replicate (n - 1) '/' ++ l := by
  cases n with
  | zero => omega
  | succ k => simp [List.replicate_succ]

theorem singleJoiningSlashL_decomp (a b : List Char) :
    singleJoiningSlashL a b
      = stripTrailSlashes a ++ List.replicate (junctionSlashes a b) '/'
          ++ stripLeadSlashes b := by
  cases hsa : hasSlashSuffix a <;> cases hsb : hasSlashLead b <;>
    simp only [singleJoiningSlashL, junctionSlashes, hsa, hsb]
  · rcases hasSlashSuffix_false a hsa with ⟨_, ha2⟩
    rcases hasSlashLead_false b hsb with ⟨_, hb2⟩
    rw [ha2, hb2]
    simp
  · rcases hasSlashSuffix_false a hsa with ⟨ha1, ha2⟩
    conv_lhs => rw [lead_decomp b]
    rw [ha1, ha2]
    simp
  · rcases hasSlashLead_false b hsb with ⟨hb1, hb2⟩
    conv_lhs => rw [trail_decomp a]
    rw [hb1, hb2]
    simp
  · have hlb := (hasSlashLead_true_iff b).mp hsb
    have hj : trailSlashRun a + leadSlashRun b - 1
        = trailSlashRun a + (leadSlashRun b - 1) := by omega
    conv_lhs => rw [trail_decomp a, lead_decomp b]
    rw [List.append_assoc, tail_replicate_append (leadSlashRun b) hlb]
    rw [hj, List.append_assoc, ← List.append_assoc (List.replicate (trailSlashRun a) '/'),
        List.append_replicate_replicate]

theorem one_le_junctionSlashes (a b : List Char) : 1 ≤ junctionSlashes a b := by
  cases hsa : hasSlashSuffix a <;> cases hsb : hasSlashLead b <;>
    simp only [junctionSlashes, hsa, hsb]
  · exact Nat.le_refl 1
  · have h2 := (hasSlashLead_true_iff b).mp hsb
    omega
  · have h1 := (hasSlashSuffix_true_iff a).mp hsa
    omega
  · have h1 := (hasSlashSuffix_true_iff a).mp hsa
    have h2 := (hasSlashLead_true_iff b).mp hsb
    omega

theorem junctionSlashes_eq_one (a b : List Char)
    (hta : trailSlashRun a ≤ 1) (hlb : leadSlashRun b ≤ 1) :
    junctionSlashes a b = 1 := by
  cases hsa : hasSlashSuffix a <;> cases hsb : hasSlashLead b <;>
    simp only [junctionSlashes, hsa, hsb]
  · have h0 := (hasSlashSuffix_false a hsa).1
    have h2 := (hasSlashLead_true_iff b).mp hsb
    omega
  · have h0 := (hasSlashLead_false b hsb).1
    have h1 := (hasSlashSuffix_true_iff a).mp hsa
    omega
  · have h1 := (hasSlashSuffix_true_iff a).mp hsa
    have h2 := (hasSlashLead_true_iff b).mp hsb
    omega

/-- Claim C6 (counterexample): for `a = "/a"` (no trailing slash) and
`b = "//b"` (leading slash), `singleJoiningSlash` takes its passthrough
branch and returns `"/a//b"`: two slashes separate the content of `a` and
`b`, refuting the universal "never two". -/
theorem claim_C6_counterexample :
    singleJoiningSlash "/a" "//b" = "/a//b" ∧
    junctionSlashes "/a".data "//b".data = 2 ∧
    singleJoiningSlashL "/a".data "//b".data
      ≠ stripTrailSlashes "/a".data ++ ['/'] ++ stripLeadSlashes "//b".data := by
  decide

/-- Claim C6 (amended): `singleJoiningSlash a b` always consists of `a`
stripped of trailing slashes, a junction of at least one slash (never zero),
and `b` stripped of leading slashes; the junction is exactly one slash
whenever `a` carries at most one trailing slash and `b` at most one leading
slash (for multiple boundary slashes it can exceed one); in particular the
four spec examples all yield `"/a/b"`. -/
theorem claim_C6_amended :
    (∀ a b : String, (singleJoiningSlash a b).data
        = stripTrailSlashes a.data
            ++ List.replicate (junctionSlashes a.data b.data) '/'
            ++ stripLeadSlashes b.data) ∧
    (∀ a b : String, 1 ≤ junctionSlashes a.data b.data) ∧
    (∀ a b : String, trailSlashRun a.data ≤ 1 → leadSlashRun b.data ≤ 1 →
        junctionSlashes a.data b.data = 1) ∧
    singleJoiningSlash "/a/" "/b" = "/a/b" ∧ singleJoiningSlash "/a" "b" = "/a/b" ∧
    singleJoiningSlash "/a/" "b" = "/a/b" ∧ singleJoiningSlash "/a" "/b" = "/a/b" := by
  refine ⟨?_, ?_, ?_, by decide, by decide, by decide, by decide⟩
  · intro a b
    exact singleJoiningSlashL_decomp a.data b.data
  · intro a b
    exact one_le_junctionSlashes a.data b.data
  · intro a b hta hlb
    exact junctionSlashes_eq_one a.data b.data hta hlb

/-- Claim C6 witness: the amended statement's exactly-one-slash part applied
to the concrete pair `("/a/", "/b")`. -/
theorem claim_C6_witness :
    trailSlashRun "/a/".data ≤ 1 ∧ leadSlashRun "/b".data ≤ 1 ∧
    junctionSlashes "/a/".data "/b".data = 1 :=
  ⟨by decide, by decide, claim_C6_amended.2.2.1 "/a/" "/b" (by decide) (by decide)⟩

/-- Claim C1: on a read-error termination of `replicateWebsocketConn`, the
error is sent on the result channel first, and the forwarded close frame is
exactly: code 1000 (normal closure) with the error's description when the
error is not a close error or is a close error with code 1005 (no status
received); no frame at all for close codes 1006 (abnormal closure) and 1015
(TLS handshake); and exactly the original code and close text for any other
close code. -/
theorem claim_C1 (e : WsError) :
    (e.closeInfo = none →
      replicateOnReadError e = [REvent.sendErr e, REvent.forwardClose 1000 e.descr]) ∧
    (∀ t, e.closeInfo = some (1005, t) →
      replicateOnReadError e = [REvent.sendErr e, REvent.forwardClose 1000 e.descr]) ∧
    (∀ c t, e.closeInfo = some (c, t) → c = 1006 ∨ c = 1015 →
      replicateOnReadError e = [REvent.sendErr e]) ∧
    (∀ c t, e.closeInfo = some (c, t) → c ≠ 1005 → c ≠ 1006 → c ≠ 1015 →
      replicateOnReadError e = [REvent.sendErr e, REvent.forwardClose c t]) := by
  refine ⟨?_, ?_, ?_, ?_⟩
  · intro h
    simp [replicateOnReadError, h]
  · intro t h
    simp [replicateOnReadError, h]
  · intro c t h hc
    rcases hc with hc | hc <;> subst hc <;> simp [replicateOnReadError, h]
  · intro c t h h5 h6 h15
    simp [replicateOnReadError, h, h5, h6, h15]

/-- Claim C1 witness: the theorem's other-code case applied to a close error
with code 1001: the forwarded frame carries exactly code 1001 and its text,
after the error is sent on the channel. -/
theorem claim_C1_witness :
    (⟨some (1001, "bye"), "close 1001"⟩ : WsError).closeInfo = some (1001, "bye") ∧
    replicateOnReadError ⟨some (1001, "bye"), "close 1001"⟩
      = [REvent.sendErr ⟨some (1001, "bye"), "close 1001"⟩,
         REvent.forwardClose 1001 "bye"] :=
  ⟨rfl,
   (claim_C1 ⟨some (1001, "bye"), "close 1001"⟩).2.2.2 1001 "bye" rfl
     (by decide) (by decide) (by decide)⟩

theorem logsFirstError_true_iff (e : WsError) :
    logsFirstError e = true ↔
      (e.closeInfo = none ∨ ∃ t, e.closeInfo = some (1006, t)) := by
  unfold logsFirstError
  cases hci : e.closeInfo with
  | none => simp [hci]
  | some ct =>
    obtain ⟨c, t⟩ := ct
    constructor
    · intro hb
      have hc : c = 1006 := by simpa using hb
      subst hc
      exact Or.inr ⟨t, rfl⟩
    · rintro (hnone | ⟨t2, ht⟩)
      · cases hnone
      · have hc : c = 1006 := by
          injection ht with ht2
          exact congrArg Prod.fst ht2
        simp [hc]

/-- Claim C2 (counterexample): a close error with the ordinary code 1000 is
NOT logged by the orchestrator, while a close error with code 1006 (abnormal
closure) IS logged — the reverse of the claimed policy. -/
theorem claim_C2_counterexample :
    (SEvent.logRelayError ⟨some (1000, "n"), "d"⟩ ∉
      serveHTTP ⟨DialOutcome.ok, true, true, true, true, false, ⟨some (1000, "n"), "d"⟩⟩) ∧
    (SEvent.logRelayError ⟨some (1006, "n"), "d"⟩ ∈
      serveHTTP ⟨DialOutcome.ok, true, true, true, true, false, ⟨some (1006, "n"), "d"⟩⟩) := by
  decide

/-- Claim C2 (amended): when the relay phase runs, the first relay error is
logged iff it is not a protocol close error or is a close error with code
1006 (abnormal closure); close errors with any other code — including normal
closure — are not logged. -/
theorem claim_C2_amended (o : ServeOracle) (hd : o.dialOutcome = DialOutcome.ok)
    (hu : o.upgradeOk = true) :
    (SEvent.logRelayError o.firstRelayErr ∈ serveHTTP o ↔
      (o.firstRelayErr.closeInfo = none ∨
        ∃ t, o.firstRelayErr.closeInfo = some (1006, t))) := by
  rw [← logsFirstError_true_iff]
  cases hh : o.hookConfigured <;> cases hlog : logsFirstError o.firstRelayErr <;>
    simp [serveHTTP, hd, hu, hh, hlog]

/-- Claim C2 witness: the amended statement applied to a concrete oracle
whose first relay error is not a close error. -/
theorem claim_C2_witness :
    (SEvent.logRelayError ⟨none, "d"⟩ ∈
      serveHTTP ⟨DialOutcome.ok, true, true, true, true, false, ⟨none, "d"⟩⟩) ↔
      ((⟨none, "d"⟩ : WsError).closeInfo = none ∨
        ∃ t, (⟨none, "d"⟩ : WsError).closeInfo = some (1006, t)) :=
  claim_C2_amended ⟨DialOutcome.ok, true, true, true, true, false, ⟨none, "d"⟩⟩ rfl rfl

/-- Claim C3 (divergence evidence): with no logger configured, `logf` writes
the line to the process-wide default logger but then faults on the nil
`Logger` interface — it never completes normally, contradicting the claim. -/
theorem claim_C3_divergence (msg : String) :
    logf false msg = LogfResult.nilPanic [msg] ∧
    ∀ dl ll, logf false msg ≠ LogfResult.ok dl ll := by
  constructor
  · rfl
  · intro dl ll h
    simp [logf] at h

/-- Claim C9: when the dial succeeds but the upgrade fails, `ServeHTTP`
returns right after logging the upgrade error: the teardown was never
installed, so the backend connection is not closed and the closed-hook is not
invoked. -/
theorem claim_C9 (o : ServeOracle) (hd : o.dialOutcome = DialOutcome.ok)
    (hu : o.upgradeOk = false) :
    serveHTTP o = [SEvent.dialAttempt, SEvent.upgradeAttempt, SEvent.logUpgradeError] ∧
    SEvent.closeTargetConn ∉ serveHTTP o ∧ SEvent.callClosedHook ∉ serveHTTP o := by
  have h1 : serveHTTP o
      = [SEvent.dialAttempt, SEvent.upgradeAttempt, SEvent.logUpgradeError] := by
    simp [serveHTTP, hd, hu]
  refine ⟨h1, ?_, ?_⟩ <;> rw [h1] <;> decide

/-- Claim C9 witness: the theorem applied to a concrete oracle with a
successful dial and a failed upgrade. -/
theorem claim_C9_witness :
    serveHTTP ⟨DialOutcome.ok, true, true, true, false, true, ⟨none, "e"⟩⟩
        = [SEvent.dialAttempt, SEvent.upgradeAttempt, SEvent.logUpgradeError] ∧
    SEvent.closeTargetConn ∉
      serveHTTP ⟨DialOutcome.ok, true, true, true, false, true, ⟨none, "e"⟩⟩ ∧
    SEvent.callClosedHook ∉
      serveHTTP ⟨DialOutcome.ok, true, true, true, false, true, ⟨none, "e"⟩⟩ :=
  claim_C9 ⟨DialOutcome.ok, true, true, true, false, true, ⟨none, "e"⟩⟩ rfl rfl

end WebsocketProxy
